import Mathlib

/-!
Verification development for the html2pptx slide translator.

The definitions embed the JavaScript source shallowly:
* `src/pptx/scripts/renderers/slide-renderer.js` — the renderer's
  `addTextElement` width-correction logic;
* `src/pptx/scripts/html2pptx.js` — colour parsing, rotation, position
  recovery, DIV border/shape emission, list emission, standalone-icon
  rasterisation, and the orchestrator's error combination.

Numbers are embedded as rationals (`ℚ`); the floating-point arithmetic of
the source is treated exactly.  Strings are embedded as `List Char`.
-/

namespace Html2Pptx

/-- The JavaScript whitespace class (`\s`, `String.prototype.trim`):
ASCII whitespace, NBSP, the Unicode space separators, line separators
and the BOM. -/
def jsWs (c : Char) : Bool :=
  c = ' ' || c = '\t' || c = '\n' || c = '\r' ||
  c.toNat = 11 || c.toNat = 12 || c.toNat = 160 || c.toNat = 0x1680 ||
  (0x2000 ≤ c.toNat && c.toNat ≤ 0x200A) ||
  c.toNat = 0x2028 || c.toNat = 0x2029 || c.toNat = 0x202F ||
  c.toNat = 0x205F || c.toNat = 0x3000 || c.toNat = 0xFEFF

/-- The renderer's Korean-character test `[가-힯]`
(slide-renderer.js line 150). -/
def isKoreanChar (c : Char) : Bool :=
  0xAC00 ≤ c.toNat && c.toNat ≤ 0xD7AF

/-- JavaScript `a || b` on numbers read from the style bag: `none`
(undefined) and `0` are falsy and select the default. -/
def jsOrQ (o : Option ℚ) (d : ℚ) : ℚ :=
  match o with
  | some v => if v = 0 then d else v
  | none => d

/-- A position in inches: `{x, y, w, h}`. -/
structure RPos where
  x : ℚ
  y : ℚ
  w : ℚ
  h : ℚ
deriving DecidableEq

/-- Field `el.style.align` as compared by the renderer: only the strings
`center` and `right` are distinguished; every other value takes the
default branch (slide-renderer.js lines 204-212). -/
inductive AlignV where
  | center
  | right
  | other
deriving DecidableEq

/-- The fields of `el.style` inspected by `addTextElement`. -/
structure RStyle where
  fontSize : ℚ
  lineSpacing : Option ℚ
  align : AlignV
deriving DecidableEq

/-- Field `el.text`: either a plain string or an array of runs
(slide-renderer.js lines 131-133 joins the run texts). -/
inductive RText where
  | plain (s : List Char)
  | runs (rs : List (List Char))
deriving DecidableEq

/-- Value `textContent` as computed in slide-renderer.js lines 131-133. -/
def textContentOf : RText → List Char
  | .plain s => s
  | .runs rs => rs.foldl (fun acc r => acc ++ r) []

/-- A text element as consumed by `addTextElement`. -/
structure RTextEl where
  text : RText
  position : RPos
  style : RStyle
deriving DecidableEq

/-- The y-overlap-and-to-the-right test of the renderer's collision loop
(slide-renderer.js lines 178-181). -/
def spaceCandidate (el : RTextEl) (o : RPos) : Prop :=
  ¬ (o.y + o.h < el.position.y ∨ el.position.y + el.position.h < o.y) ∧
    el.position.x < o.x

instance (el : RTextEl) (o : RPos) : Decidable (spaceCandidate el o) := by
  unfold spaceCandidate; infer_instance

/-- The renderer's collision loop (slide-renderer.js lines 167-187):
starting from `13.33 - currentRight`, every other element whose y-range
overlaps and whose left edge is right of this element's x shrinks the
available space to its gap when smaller.  `others` is `allElements`
without `el` itself (the loop skips `el` by identity). -/
def availableSpaceFold (el : RTextEl) (currentRight : ℚ)
    (others : List RPos) : ℚ :=
  others.foldl
    (fun acc o =>
      if spaceCandidate el o then
        (if o.x - currentRight < acc then o.x - currentRight else acc)
      else acc)
    (1333/100 - currentRight)

/-- Length-dependent buffer percentage (slide-renderer.js line 191). -/
def bufferPercent (textLength : ℕ) : ℚ :=
  if textLength ≤ 10 then 1/4 else if textLength ≤ 20 then 1/5 else 3/20

/-- The final buffer application of `addTextElement`
(slide-renderer.js lines 200-213): apply `buf` only above 0.05 inches,
distributed per alignment. -/
def bufferApply (x w1 buf : ℚ) (al : AlignV) : ℚ × ℚ :=
  if (1/20 : ℚ) < buf then
    match al with
    | .center => (x - buf / 2, w1 + buf)
    | .right => (x - buf, w1 + buf)
    | .other => (x, w1 + buf)
  else (x, w1)

/-- The single-line width adjustment of `addTextElement`
(slide-renderer.js lines 146-213), with the already-defaulted font size
as a parameter.  Returns the `(adjustedX, adjustedW)` pair. -/
def widthAdjust (el : RTextEl) (others : List RPos) (fontSize : ℚ) : ℚ × ℚ :=
  let textC := textContentOf el.text
  let textLength := textC.length
  let koreanCount := (textC.filter isKoreanChar).length
  let estimatedWidth :=
    ((koreanCount : ℚ) * fontSize * (3/4) +
      ((textLength - koreanCount : ℕ) : ℚ) * fontSize * (9/20)) / 72
  let minWidth := estimatedWidth * (23/20)
  let adjustedW := if el.position.w < minWidth then minWidth else el.position.w
  let currentRight := el.position.x + adjustedW
  let availableSpace := availableSpaceFold el currentRight others
  let desiredBuffer := estimatedWidth * bufferPercent textLength
  bufferApply el.position.x adjustedW
    (min desiredBuffer (max 0 (availableSpace * (4/5)))) el.style.align

/-- Function `addTextElement` (slide-renderer.js lines 129-243), restricted to the
geometry it computes: `none` when the element is skipped (blank text, no
`addText` call), otherwise `some (adjustedX, adjustedW)` as passed to
`addText`. -/
def addTextElement (el : RTextEl) (others : List RPos) : Option (ℚ × ℚ) :=
  let textC := textContentOf el.text
  if textC.all jsWs then none
  else
    let lineHeight := jsOrQ el.style.lineSpacing (el.style.fontSize * (6/5))
    if el.position.h ≤ lineHeight * (3/2) ∧ ¬ ((7/20 : ℚ) < el.position.h) then
      some (widthAdjust el others
        (if el.style.fontSize = 0 then (12 : ℚ) else el.style.fontSize))
    else some (el.position.x, el.position.w)

/-! ### Claim C1: the spec-side description of the width correction

The following definitions restate, in the claim's own vocabulary, the
estimated width, the available gap (the spec's description: the distance
to the right before hitting the slide edge at 13.33 inches or another
element whose y-range overlaps and whose x exceeds this element's x),
and the buffer application. -/

/-- Estimated text width per the claim:
`((koreanCount * fontSize * 0.75) + (otherCount * fontSize * 0.45)) / 72`. -/
def claimEstimatedWidth (el : RTextEl) : ℚ :=
  let textC := textContentOf el.text
  let ko := (textC.filter isKoreanChar).length
  ((ko : ℚ) * el.style.fontSize * (3/4) +
    ((textC.length - ko : ℕ) : ℚ) * el.style.fontSize * (9/20)) / 72

/-- Available gap per the spec: minimum over the slide-edge distance and
the gaps to qualifying neighbours. -/
def claimAvailableGap (el : RTextEl) (right : ℚ) (others : List RPos) : ℚ :=
  ((others.filter (fun o => decide (spaceCandidate el o))).map
    (fun o => o.x - right)).foldl min (1333/100 - right)

/-- The claim's adjustment: expand to `estimated * 1.15` when narrower,
add `min(estimated * p, 0.8 * availableGap)` when that buffer exceeds
0.05 inches, split for centre, shifted left for right, width-only for
left alignment. -/
def claimC1adjust (el : RTextEl) (others : List RPos) : ℚ × ℚ :=
  let est := claimEstimatedWidth el
  let w1 := if el.position.w < est * (23/20) then est * (23/20) else el.position.w
  let gap := claimAvailableGap el (el.position.x + w1) others
  bufferApply el.position.x w1
    (min (est * bufferPercent (textContentOf el.text).length) ((4/5) * gap))
    el.style.align

theorem foldIf_eq_foldMin (el : RTextEl) (right : ℚ) :
    ∀ (l : List RPos) (init : ℚ),
      l.foldl
        (fun acc o =>
          if spaceCandidate el o then
            (if o.x - right < acc then o.x - right else acc)
          else acc) init
      = ((l.filter (fun o => decide (spaceCandidate el o))).map
          (fun o => o.x - right)).foldl min init := by
  intro l
  induction l with
  | nil => intro init; rfl
  | cons o t ih =>
    intro init
    by_cases h : spaceCandidate el o
    · have hd : decide (spaceCandidate el o) = true := decide_eq_true h
      simp only [List.foldl_cons, if_pos h, List.filter_cons, hd, if_true,
        List.map_cons]
      rw [ih]
      have harg : (if o.x - right < init then o.x - right else init)
          = min init (o.x - right) := by
        rw [min_comm, min_def]
        split_ifs with h1 h2 h2 <;> first | rfl | linarith
      rw [harg]
    · have hd : decide (spaceCandidate el o) = false := decide_eq_false h
      simp only [List.foldl_cons, if_neg h, List.filter_cons, hd,
        Bool.false_eq_true, if_false]
      exact ih init

theorem availableSpaceFold_eq (el : RTextEl) (right : ℚ) (others : List RPos) :
    availableSpaceFold el right others = claimAvailableGap el right others := by
  unfold availableSpaceFold claimAvailableGap
  exact foldIf_eq_foldMin el right others _

theorem bufferApply_congr (x w1 : ℚ) (al : AlignV) (d g : ℚ) :
    bufferApply x w1 (min d (max 0 (g * (4/5)))) al
      = bufferApply x w1 (min d ((4/5) * g)) al := by
  rcases le_or_lt 0 (g * (4/5)) with h | h
  · rw [max_eq_right h, mul_comm]
  · have hc1 : ¬ ((1/20 : ℚ) < min d (max 0 (g * (4/5)))) := by
      intro hc
      rw [max_eq_left h.le] at hc
      have h0 : min d (0 : ℚ) ≤ 0 := min_le_right _ _
      linarith
    have hc2 : ¬ ((1/20 : ℚ) < min d ((4/5) * g)) := by
      have h0 : min d ((4/5) * g) ≤ (4/5) * g := min_le_right _ _
      have h1 : (4/5 : ℚ) * g < 0 := by rw [mul_comm]; exact h
      intro hc; linarith
    unfold bufferApply
    rw [if_neg hc1, if_neg hc2]

theorem widthAdjust_eq_claim (el : RTextEl) (others : List RPos) :
    widthAdjust el others el.style.fontSize = claimC1adjust el others := by
  simp only [widthAdjust, claimC1adjust, claimEstimatedWidth]
  rw [availableSpaceFold_eq]
  exact bufferApply_congr _ _ _ _ _

/-- Claim C1: For a text element the renderer deems single-line (height at
most 1.5 times the line spacing, which defaults to fontSize * 1.2 when
absent, and height at most 0.35 inches), with non-blank text and a
non-zero font size, the renderer's adjusted x and width are exactly the
claim's description: estimated width
`((koreanCount * fontSize * 0.75) + (otherCount * fontSize * 0.45)) / 72`
with Korean = U+AC00..U+D7AF, expansion to `estimated * 1.15` when
narrower, and a buffer `min(estimated * p, 0.8 * availableGap)` with
p = 0.25 / 0.20 / 0.15 by text length, applied only above 0.05 inches and
distributed per alignment. -/
theorem claimC1_theorem (el : RTextEl) (others : List RPos)
    (hblank : (textContentOf el.text).all jsWs = false)
    (hfs : el.style.fontSize ≠ 0)
    (hsingle : el.position.h ≤
      jsOrQ el.style.lineSpacing (el.style.fontSize * (6/5)) * (3/2))
    (hshort : el.position.h ≤ 7/20) :
    addTextElement el others = some (claimC1adjust el others) := by
  unfold addTextElement
  simp only [hblank, Bool.false_eq_true, if_false]
  rw [if_pos ⟨hsingle, not_lt.mpr hshort⟩, if_neg hfs, widthAdjust_eq_claim]

/-- Witness for C1 at a concrete single-line element. -/
theorem claimC1_witness :
    ((textContentOf (RText.plain ['h', 'i'])).all jsWs = false ∧
      (10 : ℚ) ≠ 0 ∧
      (1/5 : ℚ) ≤ jsOrQ none ((10 : ℚ) * (6/5)) * (3/2) ∧
      (1/5 : ℚ) ≤ 7/20) ∧
    addTextElement
        ⟨RText.plain ['h', 'i'], ⟨1, 1, 1/10, 1/5⟩, ⟨10, none, AlignV.other⟩⟩ []
      = some (claimC1adjust
        ⟨RText.plain ['h', 'i'], ⟨1, 1, 1/10, 1/5⟩, ⟨10, none, AlignV.other⟩⟩ []) :=
  ⟨⟨by decide, by norm_num, by norm_num [jsOrQ], by norm_num⟩,
    claimC1_theorem _ _ (by decide) (by norm_num) (by norm_num [jsOrQ]) (by norm_num)⟩

/-- Claim C10: A text element whose text content (joined over runs when the
text is an array) is empty or whitespace-only is skipped: `addText` is
never called for it. -/
theorem claimC10_theorem (el : RTextEl) (others : List RPos)
    (h : (textContentOf el.text).all jsWs = true) :
    addTextElement el others = none := by
  unfold addTextElement
  simp only [h, if_true]

/-- Witness for C10: a run-array element whose joined text is whitespace. -/
theorem claimC10_witness :
    ((textContentOf (RText.runs [[' '], ['\t', '\n']])).all jsWs = true) ∧
    addTextElement
        ⟨RText.runs [[' '], ['\t', '\n']], ⟨0, 0, 1, 1⟩, ⟨12, none, AlignV.center⟩⟩ []
      = none :=
  ⟨by decide, claimC10_theorem _ _ (by decide)⟩

/-! ### Colour parsing (html2pptx.js lines 62-79 and 1324-1340)

Hex colour output is embedded as a list of hex-digit values (0..15),
abstracting over the upper/lower case of the emitted hex string. -/

/-- Decimal digit run to a number (the regex groups `(\d+)`). -/
def digitsToNat (cs : List Char) : Nat :=
  cs.foldl (fun acc c => acc * 10 + (c.toNat - '0'.toNat)) 0

/-- Try the regex `rgba?\((\d+),\s*(\d+),\s*(\d+)` anchored at the start
of the string (html2pptx.js line 69). -/
def rgbMatchAt (cs : List Char) : Option (Nat × Nat × Nat) :=
  match cs with
  | 'r' :: 'g' :: 'b' :: rest =>
    let afterParen : Option (List Char) :=
      match rest with
      | 'a' :: '(' :: r => some r
      | '(' :: r => some r
      | _ => none
    match afterParen with
    | none => none
    | some r =>
      let d1 := r.takeWhile Char.isDigit
      let r1 := r.dropWhile Char.isDigit
      if d1.isEmpty then none
      else
        match r1 with
        | ',' :: r2 =>
          let r2w := r2.dropWhile jsWs
          let d2 := r2w.takeWhile Char.isDigit
          let r3 := r2w.dropWhile Char.isDigit
          if d2.isEmpty then none
          else
            match r3 with
            | ',' :: r4 =>
              let r4w := r4.dropWhile jsWs
              let d3 := r4w.takeWhile Char.isDigit
              if d3.isEmpty then none
              else some (digitsToNat d1, digitsToNat d2, digitsToNat d3)
            | _ => none
        | _ => none
  | _ => none

/-- Leftmost match of the rgb regex (`String.prototype.match` without the
global flag). -/
def findRgb : List Char → Option (Nat × Nat × Nat)
  | [] => none
  | c :: rest =>
    match rgbMatchAt (c :: rest) with
    | some v => some v
    | none => findRgb rest

def isHexDigitC (c : Char) : Bool :=
  c.isDigit || ('a' ≤ c && c ≤ 'f') || ('A' ≤ c && c ≤ 'F')

def hexVal (c : Char) : Nat :=
  if c.isDigit then c.toNat - '0'.toNat
  else if 'a' ≤ c ∧ c ≤ 'f' then c.toNat - 'a'.toNat + 10
  else c.toNat - 'A'.toNat + 10

/-- Try the regex `#[0-9a-fA-F]{6}` anchored at the start. -/
def hexMatchAt (cs : List Char) : Option (List Nat) :=
  match cs with
  | '#' :: a :: b :: c :: d :: e :: f :: _ =>
    if isHexDigitC a && isHexDigitC b && isHexDigitC c &&
        isHexDigitC d && isHexDigitC e && isHexDigitC f then
      some [hexVal a, hexVal b, hexVal c, hexVal d, hexVal e, hexVal f]
    else none
  | _ => none

/-- Leftmost match of the six-hex-literal regex. -/
def findHex : List Char → Option (List Nat)
  | [] => none
  | c :: rest =>
    match hexMatchAt (c :: rest) with
    | some v => some v
    | none => findHex rest

/-- Hex digits of `n`, most significant first (fuel-structured so that the
kernel evaluates it). -/
def hexDigitsAux : Nat → Nat → List Nat
  | 0, _ => []
  | fuel + 1, n => if n = 0 then [] else hexDigitsAux fuel (n / 16) ++ [n % 16]

/-- Models `parseInt(s).toString(16).padStart(2, '0')` as digit values. -/
def pad2 (n : Nat) : List Nat :=
  let ds := if n = 0 then [0] else hexDigitsAux n n
  if ds.length < 2 then 0 :: ds else ds

/-- The digit-value form of `FFFFFF`, the transparent-background default. -/
def white6 : List Nat := [15, 15, 15, 15, 15, 15]

/-- The two transparent forms checked literally by the source
(html2pptx.js lines 67 and 1326). -/
def transparentColor (s : List Char) : Bool :=
  s = ("rgba(0, 0, 0, 0)").data || s = ("transparent").data

/-- Function `rgbToHex` (html2pptx.js lines 65-72): transparent and unmatched
strings map to white; otherwise the three captured components in
two-digit hex. -/
def rgbToHexD (s : List Char) : List Nat :=
  if transparentColor s then white6
  else
    match findRgb s with
    | none => white6
    | some (r, g, b) => pad2 r ++ pad2 g ++ pad2 b

/-- Test `computed.backgroundImage && computed.backgroundImage !== 'none'`
negated: the element has no usable background image. -/
def noBgImage (s : List Char) : Bool :=
  s.isEmpty || s = ("none").data

/-- The text-colour decision of html2pptx.js lines 1324-1340: start from
`rgbToHex(color)`; when the colour is transparent and a background image
is present, take the first rgb literal of the gradient string (the
source applies `rgbToHex` to the matched substring, which re-parses to
the same three components), else the first six-hex literal, else black. -/
def textColorDecision (color bgImage : List Char) : List Nat :=
  if transparentColor color then
    if noBgImage bgImage then rgbToHexD color
    else
      match findRgb bgImage with
      | some (r, g, b) => pad2 r ++ pad2 g ++ pad2 b
      | none =>
        match findHex bgImage with
        | some ds => ds
        | none => [0, 0, 0, 0, 0, 0]
  else rgbToHexD color

/-- The amended claim's colour rule for a transparent text colour, as a
function of the computed background-image string: with a background
image present, the first rgb()/rgba() literal converted to six-hex, else
the first `#rrggbb` literal, else black; with no background image the
colour falls back to white (the transparent default of `rgbToHex`), not
black. -/
def claimC2colorSpec (bgImage : List Char) : List Nat :=
  if noBgImage bgImage then white6
  else
    match findRgb bgImage with
    | some (r, g, b) => pad2 r ++ pad2 g ++ pad2 b
    | none =>
      match findHex bgImage with
      | some ds => ds
      | none => [0, 0, 0, 0, 0, 0]

/-- Claim C2, amended: For a text element whose computed colour is
transparent (`rgba(0, 0, 0, 0)` or `transparent`), the emitted colour is:
the first rgb literal of the background-image string in six-hex when one
exists; else the first `#rrggbb` literal; else black — and white
(`FFFFFF`), not black, when there is no background image at all. -/
theorem claimC2_theorem (color bgImage : List Char)
    (h : transparentColor color = true) :
    textColorDecision color bgImage = claimC2colorSpec bgImage := by
  unfold textColorDecision claimC2colorSpec
  simp only [h, if_true]
  by_cases hb : noBgImage bgImage
  · simp only [hb, if_true]
    unfold rgbToHexD
    simp only [h, if_true]
  · simp only [hb, Bool.false_eq_true, if_false]

/-- Witness for C2 at the claim's own example gradient: the emitted
colour digits are `0C2238`. -/
theorem claimC2_witness :
    transparentColor ("transparent").data = true ∧
    textColorDecision ("transparent").data
        ("linear-gradient(rgb(12, 34, 56), rgb(255, 255, 255))").data
      = [0, 12, 2, 2, 3, 8] :=
  ⟨by decide,
    by rw [claimC2_theorem _ _ (by decide)]; decide⟩

/-- Claim C2 counterexample: At a transparent colour with no background
image the code emits white (`FFFFFF`), not the black (`000000`) the
claim requires in its otherwise-branch. -/
theorem claimC2_counterexample :
    textColorDecision ("transparent").data ("none").data = white6 ∧
    white6 ≠ [0, 0, 0, 0, 0, 0] := by
  exact ⟨by decide, by decide⟩

/-! ### DIV shape and partial-border emission (html2pptx.js lines 793-957) -/

/-- A browser `getBoundingClientRect` result (CSS pixels). -/
structure DomRect where
  left : ℚ
  top : ℚ
  width : ℚ
  height : ℚ
deriving DecidableEq

def pxToInch (px : ℚ) : ℚ := px / 96

def pxToPoints (px : ℚ) : ℚ := px * (3/4)

/-- parseFloat of a `[\d.]+` token: digits, optional dot, digits; `none`
models NaN (no digit before a second dot). -/
def jsParseFloatQ (cs : List Char) : Option ℚ :=
  let ip := cs.takeWhile Char.isDigit
  let r := cs.dropWhile Char.isDigit
  match r with
  | '.' :: r2 =>
    let fp := r2.takeWhile Char.isDigit
    if ip.isEmpty ∧ fp.isEmpty then none
    else some ((digitsToNat ip : ℚ) + (digitsToNat fp : ℚ) / (10 : ℚ) ^ fp.length)
  | _ => if ip.isEmpty then none else some (digitsToNat ip : ℚ)

/-- Try `rgba\((\d+),\s*(\d+),\s*(\d+),\s*([\d.]+)\)` anchored at the
start; yields the alpha token (html2pptx.js line 75). -/
def alphaMatchAt (cs : List Char) : Option (List Char) :=
  match cs with
  | 'r' :: 'g' :: 'b' :: 'a' :: '(' :: r =>
    let d1 := r.takeWhile Char.isDigit
    let r1 := r.dropWhile Char.isDigit
    if d1.isEmpty then none
    else
      match r1 with
      | ',' :: r2 =>
        let r2w := r2.dropWhile jsWs
        let d2 := r2w.takeWhile Char.isDigit
        let r3 := r2w.dropWhile Char.isDigit
        if d2.isEmpty then none
        else
          match r3 with
          | ',' :: r4 =>
            let r4w := r4.dropWhile jsWs
            let d3 := r4w.takeWhile Char.isDigit
            let r5 := r4w.dropWhile Char.isDigit
            if d3.isEmpty then none
            else
              match r5 with
              | ',' :: r6 =>
                let r6w := r6.dropWhile jsWs
                let tok := r6w.takeWhile (fun c => c.isDigit || c = '.')
                let r7 := r6w.dropWhile (fun c => c.isDigit || c = '.')
                if tok.isEmpty then none
                else
                  match r7 with
                  | ')' :: _ => some tok
                  | _ => none
              | _ => none
          | _ => none
      | _ => none
  | _ => none

def findAlphaTok : List Char → Option (List Char)
  | [] => none
  | c :: rest =>
    match alphaMatchAt (c :: rest) with
    | some v => some v
    | none => findAlphaTok rest

/-- Function `extractAlpha` (html2pptx.js lines 74-79): `round((1 - a) * 100)`
when an explicit alpha is present; a NaN alpha token is modelled as
absent. -/
def extractAlphaD (s : List Char) : Option ℤ :=
  match findAlphaTok s with
  | none => none
  | some tok =>
    match jsParseFloatQ tok with
    | none => none
    | some a => some ⌊(1 - a) * 100 + 1/2⌋

/-- A parsed box-shadow, carried through shape emission unchanged.  The
source's `parseBoxShadow` is modelled at its output boundary: no claim
concerns its internals, and its pixel offset is `hypot`, kept here as
the squared offset to stay rational. -/
structure ShadowData where
  angle : ℤ
  blur : ℚ
  color : List Nat
  offsetSq : ℚ
  opacity : ℚ
deriving DecidableEq

/-- The computed border-radius: leading numeric value plus the unit the
source distinguishes (`%` first, then `pt`, else px). -/
inductive RadiusUnit where
  | px
  | pt
  | pct
deriving DecidableEq

structure CssRadius where
  value : ℚ
  unit : RadiusUnit
deriving DecidableEq

/-- The rectRadius conversion (html2pptx.js lines 932-946). -/
def rectRadiusOf (r : CssRadius) (rw rh : ℚ) : ℚ :=
  if r.value = 0 then 0
  else
    match r.unit with
    | .pct => if 50 ≤ r.value then 1 else (r.value / 100) * pxToInch (min rw rh)
    | .pt => r.value / 72
    | .px => r.value / 96

/-- Elements emitted by the DIV shape/border logic. -/
inductive Emitted where
  | shape (pos : RPos) (fill : Option (List Nat)) (transparency : Option ℤ)
      (line : Option (ℚ × List Nat)) (rectRadius : ℚ)
      (shadow : Option ShadowData)
  | lineEl (x1 y1 x2 y2 : ℚ) (widthPt : ℚ) (color : List Nat)
  | placeholder (pos : RPos)
deriving DecidableEq

def isLineEl : Emitted → Bool
  | .lineEl _ _ _ _ _ _ => true
  | _ => false

def isShapeEl : Emitted → Bool
  | .shape _ _ _ _ _ _ => true
  | _ => false

/-- The rectRadius stored on a shape (0 on other variants). -/
def shapeRadiusOf : Emitted → ℚ
  | .shape _ _ _ _ r _ => r
  | _ => 0

/-- The uniform line stored on a shape. -/
def shapeLineOf : Emitted → Option (ℚ × List Nat)
  | .shape _ _ _ l _ _ => l
  | _ => none

/-- The computed-style fields of a DIV inspected by the shape/border
logic.  `hasTextContent` is the source's recursive `hasTextContent`
check (html2pptx.js lines 861-875), modelled at its output boundary. -/
structure DivData where
  bgColor : List Char
  bgImage : List Char
  borderTopW : ℚ
  borderRightW : ℚ
  borderBottomW : ℚ
  borderLeftW : ℚ
  borderTopC : List Char
  borderRightC : List Char
  borderBottomC : List Char
  borderLeftC : List Char
  borderColor : List Char
  radius : CssRadius
  shadow : Option ShadowData
  hasTextContent : Bool
  rect : DomRect
deriving DecidableEq

/-- Test `computed.backgroundColor && computed.backgroundColor !== 'rgba(0, 0, 0, 0)'`. -/
def divHasBg (d : DivData) : Bool :=
  !d.bgColor.isEmpty && !(d.bgColor = ("rgba(0, 0, 0, 0)").data)

/-- Test `computed.backgroundImage && computed.backgroundImage !== 'none'`. -/
def divHasBgImage (d : DivData) : Bool :=
  !d.bgImage.isEmpty && !(d.bgImage = ("none").data)

/-- Widths `[borderTop, borderRight, borderBottom, borderLeft]` parsed. -/
def bordersOf (d : DivData) : List ℚ :=
  [d.borderTopW, d.borderRightW, d.borderBottomW, d.borderLeftW]

def divHasBorder (d : DivData) : Bool :=
  (bordersOf d).any (fun b => 0 < b)

def divHasUniformBorder (d : DivData) : Bool :=
  divHasBorder d && (bordersOf d).all (fun b => b = d.borderTopW)

/-- The source's per-line inset: `(pxToPoints(width) / 72) / 2`. -/
def codeInset (b : ℚ) : ℚ := (pxToPoints b / 72) / 2

/-- The claim's inset: half the border width converted to inches. -/
def claimInset (b : ℚ) : ℚ := (b / 96) / 2

/-- The partial-border line elements (html2pptx.js lines 803-851), built
only when a border exists and is non-uniform, in top/right/bottom/left
order. -/
def codeBorderLines (d : DivData) : List Emitted :=
  if divHasBorder d && !divHasUniformBorder d then
    let x := pxToInch d.rect.left
    let y := pxToInch d.rect.top
    let w := pxToInch d.rect.width
    let h := pxToInch d.rect.height
    (if 0 < d.borderTopW then
      [Emitted.lineEl x (y + codeInset d.borderTopW) (x + w) (y + codeInset d.borderTopW)
        (pxToPoints d.borderTopW) (rgbToHexD d.borderTopC)]
    else []) ++
    (if 0 < d.borderRightW then
      [Emitted.lineEl (x + w - codeInset d.borderRightW) y (x + w - codeInset d.borderRightW) (y + h)
        (pxToPoints d.borderRightW) (rgbToHexD d.borderRightC)]
    else []) ++
    (if 0 < d.borderBottomW then
      [Emitted.lineEl x (y + h - codeInset d.borderBottomW) (x + w) (y + h - codeInset d.borderBottomW)
        (pxToPoints d.borderBottomW) (rgbToHexD d.borderBottomC)]
    else []) ++
    (if 0 < d.borderLeftW then
      [Emitted.lineEl (x + codeInset d.borderLeftW) y (x + codeInset d.borderLeftW) (y + h)
        (pxToPoints d.borderLeftW) (rgbToHexD d.borderLeftC)]
    else [])
  else []

/-- The DIV shape/border emission (html2pptx.js lines 857-957), entered
for a DIV not intercepted by an earlier rule (no placeholder class, no
icon class, not the background-image raster path's own emission): no
emission when rasterised or borderless-and-fillless; a whole-DIV raster
placeholder when there is no meaningful text; otherwise, for a
positive-size rect, a shape (only with background or uniform border)
followed by the partial-border lines. -/
def processDivShape (d : DivData) : List Emitted :=
  if (divHasBg d || divHasBorder d) && !divHasBgImage d then
    if !d.hasTextContent then
      [Emitted.placeholder
        ⟨pxToInch d.rect.left, pxToInch d.rect.top,
          pxToInch d.rect.width, pxToInch d.rect.height⟩]
    else if 0 < d.rect.width ∧ 0 < d.rect.height then
      (if divHasBg d || divHasUniformBorder d then
        [Emitted.shape
          ⟨pxToInch d.rect.left, pxToInch d.rect.top,
            pxToInch d.rect.width, pxToInch d.rect.height⟩
          (if divHasBg d then some (rgbToHexD d.bgColor) else none)
          (if divHasBg d then extractAlphaD d.bgColor else none)
          (if divHasUniformBorder d then
            some (pxToPoints d.borderTopW, rgbToHexD d.borderColor)
          else none)
          (rectRadiusOf d.radius d.rect.width d.rect.height)
          d.shadow]
      else []) ++ codeBorderLines d
    else []
  else []

/-- The claim's partial-border description: one line per side with
positive border width, placed inset from that edge by half the border
width converted to inches (top/right/bottom/left order as emitted). -/
def claimBorderLines (d : DivData) : List Emitted :=
  let x := pxToInch d.rect.left
  let y := pxToInch d.rect.top
  let w := pxToInch d.rect.width
  let h := pxToInch d.rect.height
  (if 0 < d.borderTopW then
    [Emitted.lineEl x (y + claimInset d.borderTopW) (x + w) (y + claimInset d.borderTopW)
      (pxToPoints d.borderTopW) (rgbToHexD d.borderTopC)]
  else []) ++
  (if 0 < d.borderRightW then
    [Emitted.lineEl (x + w - claimInset d.borderRightW) y (x + w - claimInset d.borderRightW) (y + h)
      (pxToPoints d.borderRightW) (rgbToHexD d.borderRightC)]
  else []) ++
  (if 0 < d.borderBottomW then
    [Emitted.lineEl x (y + h - claimInset d.borderBottomW) (x + w) (y + h - claimInset d.borderBottomW)
      (pxToPoints d.borderBottomW) (rgbToHexD d.borderBottomC)]
  else []) ++
  (if 0 < d.borderLeftW then
    [Emitted.lineEl (x + claimInset d.borderLeftW) y (x + claimInset d.borderLeftW) (y + h)
      (pxToPoints d.borderLeftW) (rgbToHexD d.borderLeftC)]
  else [])

theorem codeInset_eq_claimInset (b : ℚ) : codeInset b = claimInset b := by
  unfold codeInset claimInset pxToPoints
  ring

theorem codeBorderLines_eq (d : DivData)
    (hb : divHasBorder d = true) (hnu : divHasUniformBorder d = false) :
    codeBorderLines d = claimBorderLines d := by
  unfold codeBorderLines claimBorderLines
  simp only [hb, hnu, Bool.not_false, Bool.and_self, if_true,
    codeInset_eq_claimInset]

/-- The shape the claim expects for a backgrounded DIV with non-uniform
borders: the fill and transparency of the background colour, no uniform
border line, the converted rectRadius, the parsed shadow. -/
def claimC3shape (d : DivData) : Emitted :=
  Emitted.shape
    ⟨pxToInch d.rect.left, pxToInch d.rect.top,
      pxToInch d.rect.width, pxToInch d.rect.height⟩
    (some (rgbToHexD d.bgColor)) (extractAlphaD d.bgColor) none
    (rectRadiusOf d.radius d.rect.width d.rect.height) d.shadow

theorem processDivShape_nonuniform (d : DivData)
    (hb : divHasBorder d = true)
    (hnu : divHasUniformBorder d = false)
    (hni : divHasBgImage d = false)
    (ht : d.hasTextContent = true)
    (hw : 0 < d.rect.width) (hh : 0 < d.rect.height) :
    processDivShape d =
      (if divHasBg d then [claimC3shape d] else []) ++ claimBorderLines d := by
  unfold processDivShape claimC3shape
  simp only [hb, hnu, hni, ht, Bool.or_true, Bool.not_false, Bool.and_self,
    if_true, Bool.not_true, Bool.false_eq_true, if_false, Bool.or_false]
  rw [if_pos ⟨hw, hh⟩, codeBorderLines_eq d hb hnu]
  by_cases hbg : divHasBg d <;> simp [hbg]

/-- Claim C3, amended: For a DIV with non-uniform borders and no
background image that contains meaningful text and has a positive-size
rect: a shape is emitted only when the DIV has a background colour, that
shape carries no uniform border line, and it is followed by exactly one
line element per side with positive border width, each inset from its
edge by half the border width in inches.  (A DIV without meaningful text
is rasterised whole instead: one placeholder, no lines — see the
counterexample.) -/
theorem claimC3_theorem (d : DivData)
    (hb : divHasBorder d = true)
    (hnu : divHasUniformBorder d = false)
    (hni : divHasBgImage d = false)
    (ht : d.hasTextContent = true)
    (hw : 0 < d.rect.width) (hh : 0 < d.rect.height) :
    processDivShape d =
      (if divHasBg d then [claimC3shape d] else []) ++ claimBorderLines d :=
  processDivShape_nonuniform d hb hnu hni ht hw hh

/-- The counterexample DIV for C3: a single positive top border, no
background, no background image, but no meaningful text. -/
def divC3cex : DivData :=
  ⟨("rgba(0, 0, 0, 0)").data, ("none").data,
    2, 0, 0, 0,
    ("rgb(0, 0, 0)").data, ("rgb(0, 0, 0)").data,
    ("rgb(0, 0, 0)").data, ("rgb(0, 0, 0)").data,
    ("rgb(0, 0, 0)").data,
    ⟨0, RadiusUnit.px⟩, none, false, ⟨0, 0, 100, 50⟩⟩

/-- Claim C3 counterexample: `divC3cex` satisfies every hypothesis of the
claim as stated (non-uniform positive border, no background image), yet
the code emits no line element at all — it rasterises the DIV into a
single image placeholder because it has no meaningful text. -/
theorem claimC3_counterexample :
    divHasBorder divC3cex = true ∧
    divHasUniformBorder divC3cex = false ∧
    divHasBgImage divC3cex = false ∧
    (0 : ℚ) < divC3cex.borderTopW ∧
    (processDivShape divC3cex).all (fun e => !isLineEl e) = true ∧
    (processDivShape divC3cex).length = 1 := by
  refine ⟨by decide, by decide, by decide, by decide, ?_, ?_⟩ <;> decide

/-- Witness for C3: the spec's partial-border example (top 2px, bottom
4px) on a red DIV with text. -/
def divC3wit : DivData :=
  ⟨("rgb(255, 0, 0)").data, ("none").data,
    2, 0, 4, 0,
    ("rgb(0, 0, 0)").data, ("rgb(0, 0, 0)").data,
    ("rgb(255, 0, 0)").data, ("rgb(0, 0, 0)").data,
    ("rgb(0, 0, 0)").data,
    ⟨0, RadiusUnit.px⟩, none, true, ⟨0, 0, 96, 48⟩⟩

theorem claimC3_witness :
    (divHasBorder divC3wit = true ∧
      divHasUniformBorder divC3wit = false ∧
      divHasBgImage divC3wit = false ∧
      divC3wit.hasTextContent = true ∧
      (0 : ℚ) < divC3wit.rect.width ∧ (0 : ℚ) < divC3wit.rect.height) ∧
    processDivShape divC3wit =
      (if divHasBg divC3wit then [claimC3shape divC3wit] else []) ++
        claimBorderLines divC3wit :=
  ⟨⟨by decide, by decide, by decide, by decide, by decide, by decide⟩,
    claimC3_theorem divC3wit (by decide) (by decide) (by decide) (by decide)
      (by decide) (by decide)⟩

/-- The claim's rectRadius rule, stated in the claim's own case order:
zero stays zero; a percentage of at least 50 yields exactly 1; a smaller
percentage yields that fraction of the smaller dimension in inches; a pt
value is divided by 72; any other (px) value is divided by 96. -/
def claimC4radius (r : CssRadius) (rw rh : ℚ) : ℚ :=
  if r.value = 0 then 0
  else if r.unit = RadiusUnit.pct ∧ 50 ≤ r.value then 1
  else if r.unit = RadiusUnit.pct then (r.value / 100) * (min rw rh / 96)
  else if r.unit = RadiusUnit.pt then r.value / 72
  else r.value / 96

theorem rectRadiusOf_eq_claim (r : CssRadius) (rw rh : ℚ) :
    rectRadiusOf r rw rh = claimC4radius r rw rh := by
  unfold rectRadiusOf claimC4radius pxToInch
  rcases r with ⟨v, u⟩
  by_cases hv : v = 0
  · simp [hv]
  · cases u <;> simp [hv]

/-- Claim C4: Every shape emitted by the DIV logic carries the claim's
rectRadius: zero stays zero, a percentage of at least 50 becomes exactly
1, a smaller percentage that fraction of the smaller dimension in
inches, a pt value over 72, a px value over 96. -/
theorem claimC4_theorem (d : DivData) (e : Emitted)
    (hm : e ∈ processDivShape d) (hs : isShapeEl e = true) :
    shapeRadiusOf e = claimC4radius d.radius d.rect.width d.rect.height := by
  unfold processDivShape at hm
  have hline : ∀ x ∈ codeBorderLines d, isShapeEl x = false := by
    intro x hx
    unfold codeBorderLines at hx
    split at hx
    · simp only [List.mem_append] at hx
      rcases hx with ((h1 | h1) | h1) | h1 <;> split at h1 <;>
        simp_all [isShapeEl]
    · simp at hx
  split at hm
  · split at hm
    · simp only [List.mem_singleton] at hm
      subst hm
      simp [isShapeEl] at hs
    · split at hm
      · simp only [List.mem_append] at hm
        rcases hm with hm | hm
        · split at hm
          · simp only [List.mem_singleton] at hm
            subst hm
            simp only [shapeRadiusOf]
            exact rectRadiusOf_eq_claim _ _ _
          · simp at hm
        · have := hline e hm
          rw [this] at hs
          exact absurd hs (by simp)
      · simp at hm
  · simp at hm

/-- Witness DIV for C4: a blue square with a 50% border-radius (the
full-circle boundary case), non-uniform borders, and text. -/
def divC4wit : DivData :=
  ⟨("rgb(0, 0, 255)").data, ("none").data,
    2, 0, 4, 0,
    ("rgb(0, 0, 0)").data, ("rgb(0, 0, 0)").data,
    ("rgb(0, 0, 0)").data, ("rgb(0, 0, 0)").data,
    ("rgb(0, 0, 0)").data,
    ⟨50, RadiusUnit.pct⟩, none, true, ⟨0, 0, 96, 96⟩⟩

theorem claimC4_memwit : (claimC3shape divC4wit) ∈ processDivShape divC4wit := by
  rw [processDivShape_nonuniform divC4wit (by decide) (by decide) (by decide)
    (by decide) (by decide) (by decide)]
  have hbg : divHasBg divC4wit = true := by decide
  rw [hbg]
  simp

theorem claimC4_witness :
    ((claimC3shape divC4wit) ∈ processDivShape divC4wit ∧
      isShapeEl (claimC3shape divC4wit) = true) ∧
    shapeRadiusOf (claimC3shape divC4wit)
      = claimC4radius divC4wit.radius divC4wit.rect.width divC4wit.rect.height :=
  ⟨⟨claimC4_memwit, by decide⟩,
    claimC4_theorem divC4wit (claimC3shape divC4wit) claimC4_memwit (by decide)⟩

/-! ### UL/OL list emission (html2pptx.js lines 1150-1206) -/

/-- The glyph class of the list-item strip regex `^[•\-\*▪▸]\s*`. -/
def bulletGlyphs : List Char := ['•', '-', '*', '▪', '▸']

/-- The first-run replace of html2pptx.js line 1166: one leading glyph
from the class above and all whitespace after it are removed (the regex
star permits zero whitespace after the glyph). -/
def stripManualBullet : List Char → List Char
  | [] => []
  | c :: rest => if c ∈ bulletGlyphs then rest.dropWhile jsWs else c :: rest

/-- A run of the emitted list element: text plus the two options the
list code mutates (`bullet` holds the indent when set). -/
structure ListRun where
  text : List Char
  bullet : Option ℚ
  breakLine : Bool
deriving DecidableEq

/-- One LI as seen by the fallback list pass: whether the flex pass
already processed it, and the run texts `parseInlineFormatting`
produced for it (each run starts with `breakLine: false` and no
bullet, per the `baseOptions` spread). -/
structure LIData where
  isFlex : Bool
  runTexts : List (List Char)
deriving DecidableEq

/-- Set `breakLine := true` on the last run
(html2pptx.js line 1171). -/
def setLastBreak : List ListRun → List ListRun
  | [] => []
  | [r] => [{ r with breakLine := true }]
  | r :: r2 :: rest => r :: setLastBreak (r2 :: rest)

/-- The per-LI transformation (html2pptx.js lines 1163-1172): strip the
manual bullet from the first run, give it `bullet: (indent)`, and set
`breakLine` on the last run unless this is the last LI. -/
def liToRuns (runTexts : List (List Char)) (indent : ℚ) (isLast : Bool) :
    List ListRun :=
  match runTexts with
  | [] => []
  | t0 :: rest =>
    let base : List ListRun :=
      ⟨stripManualBullet t0, some indent, false⟩ ::
        rest.map (fun t => ⟨t, none, false⟩)
    if isLast then base else setLastBreak base

/-- The `liElements.forEach` accumulation (html2pptx.js lines 1160-1174):
flex LIs were marked processed and are skipped; `isLast` is the index
test against the full LI list, equivalently the emptiness of the rest. -/
def buildListItems : List LIData → ℚ → List ListRun
  | [], _ => []
  | li :: rest, ind =>
    (if li.isFlex then [] else liToRuns li.runTexts ind rest.isEmpty) ++
      buildListItems rest ind

/-- The emitted list element's fields the claim speaks about. -/
structure ListElementE where
  items : List ListRun
  marginLeft : ℚ
deriving DecidableEq

/-- The UL/OL handler's list emission (html2pptx.js lines 974-1206,
geometry and block style omitted): the flex pass consumes the whole list
when every LI is flex; otherwise the fallback builds the items and emits
one list element exactly when they are non-empty, with half the UL's
padding-left (in points) as bullet indent and the other half as
margin-left. -/
def emitUL (lis : List LIData) (padLeftPx : ℚ) : Option ListElementE :=
  if lis.any (fun li => li.isFlex) && lis.all (fun li => li.isFlex) then none
  else
    let padPt := pxToPoints padLeftPx
    let items := buildListItems lis (padPt * (1/2))
    if items.isEmpty then none else some ⟨items, padPt * (1/2)⟩

/-- Map over a list with a flag that is true exactly on the final
element. -/
def mapWithLast (f : LIData → Bool → List ListRun) : List LIData → List (List ListRun)
  | [] => []
  | [a] => [f a true]
  | a :: b :: rest => f a false :: mapWithLast f (b :: rest)

/-- The claim's description of the items: every LI still in the list
(non-flex) contributes its runs, the first run stripped of a manual
bullet glyph and carrying `bullet: (indent)`, and the last run of every
LI except the final one carrying `breakLine: true`. -/
def claimC5items (lis : List LIData) (indent : ℚ) : List ListRun :=
  (mapWithLast
    (fun li isFinal =>
      if li.isFlex then [] else liToRuns li.runTexts indent isFinal) lis).flatten

theorem buildListItems_eq_claim (lis : List LIData) (ind : ℚ) :
    buildListItems lis ind = claimC5items lis ind := by
  induction lis with
  | nil => rfl
  | cons a rest ih =>
    cases rest with
    | nil => simp [buildListItems, claimC5items, mapWithLast]
    | cons b rest2 =>
      simp only [buildListItems, claimC5items, mapWithLast, List.flatten_cons,
        List.isEmpty_cons] at ih ⊢
      rw [ih]

theorem buildListItems_allFlex (lis : List LIData) (ind : ℚ)
    (h : lis.all (fun li => li.isFlex) = true) :
    buildListItems lis ind = [] := by
  induction lis with
  | nil => rfl
  | cons a rest ih =>
    simp only [List.all_cons, Bool.and_eq_true] at h
    simp [buildListItems, h.1, ih h.2]

/-- Claim C5: For a UL/OL that is not fully flex-decomposed and whose LIs
yield at least one run, exactly one list element is emitted; its items
are the claim's per-LI transformation (manual bullet glyph stripped from
the first run — the second conjunct states the strip explicitly: a
leading glyph and the whitespace following it are removed — first run
carrying `bullet` with indent half the UL padding-left in points,
`breakLine: true` on the last run of every non-final LI), and its
margin-left is the other half of the padding-left. -/
theorem claimC5_theorem (lis : List LIData) (padLeftPx : ℚ)
    (h1 : buildListItems lis (pxToPoints padLeftPx * (1/2)) ≠ []) :
    emitUL lis padLeftPx =
      some ⟨claimC5items lis (pxToPoints padLeftPx * (1/2)),
        pxToPoints padLeftPx * (1/2)⟩ ∧
    ∀ g r, g ∈ bulletGlyphs →
      stripManualBullet (g :: r) = r.dropWhile jsWs := by
  refine ⟨?_, ?_⟩
  · unfold emitUL
    have hguard :
        (lis.any (fun li => li.isFlex) && lis.all (fun li => li.isFlex)) = false := by
      cases hg : (lis.any (fun li => li.isFlex) && lis.all (fun li => li.isFlex)) with
      | false => rfl
      | true =>
        rw [Bool.and_eq_true] at hg
        exact absurd (buildListItems_allFlex lis _ hg.2) h1
    rw [hguard]
    simp only [Bool.false_eq_true, if_false]
    have hne : (buildListItems lis (pxToPoints padLeftPx * (1/2))).isEmpty = false := by
      cases he : (buildListItems lis (pxToPoints padLeftPx * (1/2))).isEmpty with
      | false => rfl
      | true => exact absurd (List.isEmpty_iff.mp he) h1
    rw [hne]
    simp only [Bool.false_eq_true, if_false]
    rw [buildListItems_eq_claim]
  · intro g r hg
    simp [stripManualBullet, hg]

/-- Witness for C5: two LIs, the first starting with a manual bullet
glyph, UL padding-left 8px. -/
theorem claimC5_witness :
    (buildListItems [⟨false, [['•', ' ', 'a'], ['b']]⟩, ⟨false, [['c']]⟩]
        (pxToPoints 8 * (1/2)) ≠ []) ∧
    emitUL [⟨false, [['•', ' ', 'a'], ['b']]⟩, ⟨false, [['c']]⟩] 8 =
      some ⟨claimC5items [⟨false, [['•', ' ', 'a'], ['b']]⟩, ⟨false, [['c']]⟩]
          (pxToPoints 8 * (1/2)),
        pxToPoints 8 * (1/2)⟩ :=
  ⟨by decide, (claimC5_theorem _ _ (by decide)).1⟩

/-! ### Rotation (html2pptx.js lines 91-128) and position recovery
(lines 131-164) -/

/-- The writing-mode values `getRotation` distinguishes. -/
inductive WritingModeV where
  | verticalRL
  | verticalLR
  | horizontal
deriving DecidableEq

/-- The computed transform as `getRotation` reads it: absent/`none`, a
`rotate(Ndeg)` match, a collapsed `matrix(a, b, c, d, e, f)` (only the
first two entries feed the angle), or any other transform string
(matching neither regex, contributing nothing). -/
inductive CssTransform where
  | noTf
  | rotateTf (deg : ℚ)
  | matrixTf (a b : ℚ)
  | otherTf
deriving DecidableEq

/-- Base angle from writing-mode (html2pptx.js lines 97-103). -/
def baseAngle : WritingModeV → ℝ
  | .verticalRL => 90
  | .verticalLR => 270
  | .horizontal => 0

/-- Models `Math.atan2` on the reals. -/
noncomputable def atan2R (y x : ℝ) : ℝ :=
  if 0 < x then Real.arctan (y / x)
  else if x < 0 then
    (if 0 ≤ y then Real.arctan (y / x) + Real.pi
     else Real.arctan (y / x) - Real.pi)
  else if 0 < y then Real.pi / 2
  else if y < 0 then -(Real.pi / 2)
  else 0

/-- The angle contribution of the transform (html2pptx.js lines
106-121): matched `rotate` adds its degrees; a matrix adds
`Math.round(atan2(b, a) * 180 / π)` (`round x = ⌊x + 1/2⌋`, exactly
`Math.round`). -/
noncomputable def rotationDelta : CssTransform → ℝ
  | .noTf => 0
  | .otherTf => 0
  | .rotateTf d => (d : ℝ)
  | .matrixTf a b => ((round (atan2R (b : ℝ) (a : ℝ) * (180 / Real.pi)) : ℤ) : ℝ)

/-- JavaScript truncation toward zero (the `%` operator's quotient). -/
noncomputable def jsTrunc (x : ℝ) : ℤ :=
  if x < 0 then -(⌊-x⌋) else ⌊x⌋

/-- Normalisation `angle % 360` followed by `if (angle < 0) angle += 360`
(html2pptx.js lines 124-125). -/
noncomputable def jsMod360 (x : ℝ) : ℝ :=
  let t := x - 360 * ((jsTrunc (x / 360) : ℤ) : ℝ)
  if t < 0 then t + 360 else t

/-- Function `getRotation` (html2pptx.js lines 91-128): base angle plus transform
contribution, normalised, with zero represented as `none`. -/
noncomputable def getRotationR (t : CssTransform) (wm : WritingModeV) : Option ℝ :=
  let a := jsMod360 (baseAngle wm + rotationDelta t)
  if a = 0 then none else some a

/-- The claim's rotation: the same sum reduced modulo 360 into
`[0, 360)` (mathematical floor-mod), with 0 becoming null. -/
noncomputable def claimRotation (t : CssTransform) (wm : WritingModeV) : Option ℝ :=
  let s := baseAngle wm + rotationDelta t
  let r := s - 360 * ((⌊s / 360⌋ : ℤ) : ℝ)
  if r = 0 then none else some r

theorem jsMod360_eq_floorMod (x : ℝ) :
    jsMod360 x = x - 360 * ((⌊x / 360⌋ : ℤ) : ℝ) := by
  unfold jsMod360 jsTrunc
  have hx : 360 * (x / 360) = x := by field_simp
  by_cases hq : x / 360 < 0
  · rw [if_pos hq]
    rw [Int.floor_neg, neg_neg]
    by_cases ht : x - 360 * ((⌈x / 360⌉ : ℤ) : ℝ) < 0
    · rw [if_pos ht]
      have h1 : ((⌈x / 360⌉ : ℤ) : ℝ) - 1 < x / 360 := by
        have := Int.ceil_lt_add_one (x / 360)
        linarith
      have h2 : x / 360 < ((⌈x / 360⌉ : ℤ) : ℝ) := by nlinarith
      have hfl : ⌊x / 360⌋ = ⌈x / 360⌉ - 1 := by
        rw [Int.floor_eq_iff]
        constructor
        · push_cast; linarith
        · push_cast; linarith
      rw [hfl]
      push_cast
      ring
    · rw [if_neg ht]
      have hge : ((⌈x / 360⌉ : ℤ) : ℝ) ≤ x / 360 := by nlinarith [not_lt.mp ht]
      have hle : x / 360 ≤ ((⌈x / 360⌉ : ℤ) : ℝ) := Int.le_ceil _
      have heq : x / 360 = ((⌈x / 360⌉ : ℤ) : ℝ) := le_antisymm hle hge
      have hfc : ⌊x / 360⌋ = ⌈x / 360⌉ := by
        have h := Int.floor_intCast (α := ℝ) ⌈x / 360⌉
        rw [← heq] at h
        exact h
      rw [hfc]
  · rw [if_neg hq]
    push_neg at hq
    have hge : ((⌊x / 360⌋ : ℤ) : ℝ) ≤ x / 360 := Int.floor_le _
    rw [if_neg (by nlinarith)]

/-- Claim C6: The derived rotation is the base angle (90 for vertical-rl,
270 for vertical-lr, 0 otherwise) plus the `rotate(Ndeg)` angle, or
`round(atan2(b, a))` in degrees for a matrix transform, reduced modulo
360 into `[0, 360)`, with 0 represented as null; in particular
vertical-rl with no transform gives rotation 90. -/
theorem claimC6_theorem :
    (∀ (t : CssTransform) (wm : WritingModeV),
      getRotationR t wm = claimRotation t wm) ∧
    getRotationR CssTransform.noTf WritingModeV.verticalRL = some 90 := by
  have hmain : ∀ (t : CssTransform) (wm : WritingModeV),
      getRotationR t wm = claimRotation t wm := by
    intro t wm
    unfold getRotationR claimRotation
    rw [jsMod360_eq_floorMod]
  refine ⟨hmain, ?_⟩
  rw [hmain]
  unfold claimRotation
  simp only [rotationDelta, baseAngle, add_zero]
  have hfl : ⌊(90 : ℝ) / 360⌋ = (0 : ℤ) := by
    rw [Int.floor_eq_iff]
    norm_num
  rw [hfl]
  norm_num

/-- Function `getPositionAndSize` (html2pptx.js lines 131-164): no rotation uses
the rect unchanged; 90 or 270 swaps width and height about the rect
centre; any other rotation recentres the element's own offset box on the
rect centre.  Output is in CSS pixels, as the function the caller
divides by 96. -/
noncomputable def getPositionAndSize (offsetW offsetH : ℚ) (rect : DomRect) :
    Option ℝ → RPos
  | none => ⟨rect.left, rect.top, rect.width, rect.height⟩
  | some r =>
    if r = 90 ∨ r = 270 then
      ⟨rect.left + rect.width / 2 - rect.height / 2,
        rect.top + rect.height / 2 - rect.width / 2,
        rect.height, rect.width⟩
    else
      ⟨rect.left + rect.width / 2 - offsetW / 2,
        rect.top + rect.height / 2 - offsetH / 2,
        offsetW, offsetH⟩

/-- A box of size `w × h` centred on the rect's centre point. -/
def centreBox (rect : DomRect) (w h : ℚ) : RPos :=
  ⟨rect.left + rect.width / 2 - w / 2,
    rect.top + rect.height / 2 - h / 2, w, h⟩

/-- The claim's position rule: the pre-rotation box for 90/270 is the
centre-preserving swap (output w = rect height, output h = rect width);
any other non-null rotation recentres the offset box; null keeps the
rect. -/
noncomputable def claimPositionAndSize (offsetW offsetH : ℚ) (rect : DomRect) :
    Option ℝ → RPos
  | none => ⟨rect.left, rect.top, rect.width, rect.height⟩
  | some r =>
    if r = 90 ∨ r = 270 then centreBox rect rect.height rect.width
    else centreBox rect offsetW offsetH

/-- Claim C7: The emitted position equals the claim's description, and for
a 90- or 270-degree rotation the output swaps the rect's width and
height while preserving its centre point. -/
theorem claimC7_theorem :
    (∀ (offsetW offsetH : ℚ) (rect : DomRect) (rot : Option ℝ),
      getPositionAndSize offsetW offsetH rect rot
        = claimPositionAndSize offsetW offsetH rect rot) ∧
    (∀ (offsetW offsetH : ℚ) (rect : DomRect) (r : ℝ),
      (r = 90 ∨ r = 270) →
      (getPositionAndSize offsetW offsetH rect (some r)).w = rect.height ∧
      (getPositionAndSize offsetW offsetH rect (some r)).h = rect.width ∧
      (getPositionAndSize offsetW offsetH rect (some r)).x
          + (getPositionAndSize offsetW offsetH rect (some r)).w / 2
        = rect.left + rect.width / 2 ∧
      (getPositionAndSize offsetW offsetH rect (some r)).y
          + (getPositionAndSize offsetW offsetH rect (some r)).h / 2
        = rect.top + rect.height / 2) := by
  constructor
  · intro offsetW offsetH rect rot
    cases rot with
    | none => rfl
    | some r =>
      simp only [getPositionAndSize, claimPositionAndSize, centreBox]
  · intro offsetW offsetH rect r hv
    simp only [getPositionAndSize]
    rw [if_pos hv]
    exact ⟨rfl, rfl, by ring, by ring⟩

/-- Witness for C7: a 100 × 300 rect at the origin rotated 90 degrees
(the spec's vertical-text example). -/
theorem claimC7_witness :
    ((90 : ℝ) = 90 ∨ (90 : ℝ) = 270) ∧
    ((getPositionAndSize 5 3 ⟨0, 0, 100, 300⟩ (some 90)).w = (300 : ℚ) ∧
      (getPositionAndSize 5 3 ⟨0, 0, 100, 300⟩ (some 90)).h = (100 : ℚ) ∧
      (getPositionAndSize 5 3 ⟨0, 0, 100, 300⟩ (some 90)).x
          + (getPositionAndSize 5 3 ⟨0, 0, 100, 300⟩ (some 90)).w / 2
        = (0 : ℚ) + 100 / 2 ∧
      (getPositionAndSize 5 3 ⟨0, 0, 100, 300⟩ (some 90)).y
          + (getPositionAndSize 5 3 ⟨0, 0, 100, 300⟩ (some 90)).h / 2
        = (0 : ℚ) + 300 / 2) :=
  ⟨Or.inl rfl, claimC7_theorem.2 5 3 ⟨0, 0, 100, 300⟩ 90 (Or.inl rfl)⟩

/-! ### Standalone icon rasterisation (html2pptx.js lines 530-569) -/

/-- Models `String.prototype.includes`. -/
def containsSub (sub : List Char) : List Char → Bool
  | [] => sub.isEmpty
  | c :: rest => sub.isPrefixOf (c :: rest) || containsSub sub rest

/-- The icon-family class test (html2pptx.js line 535). -/
def isIconClassOf (cls : List Char) : Bool :=
  containsSub ("fa").data cls || containsSub ("icon").data cls ||
    containsSub ("material-icons").data cls

/-- Test `el.textContent.trim().length > 0`. -/
def iconHasText (t : List Char) : Bool :=
  t.any (fun c => !(jsWs c))

/-- An unprocessed `<i>`/`<span>` element as the standalone-icon branch
reads it. -/
structure IconCand where
  isTagISpan : Bool
  className : List Char
  textC : List Char
  rect : DomRect
  hasId : Bool
deriving DecidableEq

def inchesRect (r : DomRect) : RPos :=
  ⟨pxToInch r.left, pxToInch r.top, pxToInch r.width, pxToInch r.height⟩

/-- What the standalone-icon branch does when it fires: assigns an id if
absent, records a raster request at the rect, pushes one
image-placeholder at the rect, marks the element and all its descendants
processed. -/
structure IconEmit where
  assignedNewId : Bool
  reqPos : RPos
  phPos : RPos
  marksDescendantsProcessed : Bool
deriving DecidableEq

/-- The standalone-icon branch (html2pptx.js lines 532-568), as nested
in the source: the `<i>`/`<span>` tag test wraps the rect/class/text
condition `rect.width > 0 && rect.height > 0 && (isIconClass ||
(!hasText && rect.width < 50))`; `none` when the branch does not fire. -/
def iconBranch (el : IconCand) : Option IconEmit :=
  if el.isTagISpan = true then
    if 0 < el.rect.width ∧ 0 < el.rect.height ∧
        (isIconClassOf el.className = true ∨
          (iconHasText el.textC = false ∧ el.rect.width < 50)) then
      some ⟨!el.hasId, inchesRect el.rect, inchesRect el.rect, true⟩
    else none
  else none

/-- The amended claim's flat condition: an `<i>`/`<span>` with positive
rendered width and height that carries an icon-family class or has empty
text content and rendered width under 50 px. -/
def claimC8spec (el : IconCand) : Option IconEmit :=
  if el.isTagISpan = true ∧ 0 < el.rect.width ∧ 0 < el.rect.height ∧
      (isIconClassOf el.className = true ∨
        (iconHasText el.textC = false ∧ el.rect.width < 50)) then
    some ⟨!el.hasId, inchesRect el.rect, inchesRect el.rect, true⟩
  else none

/-- Claim C8, amended: The standalone-icon branch fires exactly for an
`<i>`/`<span>` with positive rendered width and height that carries an
icon-family class (`fa`, `icon`, `material-icons` substring) or has
empty text content and rendered width below 50 px; when it fires it
assigns an id if absent, records one raster request and emits one
image-placeholder at the element's rect (in inches), and marks the
element's descendants processed. -/
theorem claimC8_theorem (el : IconCand) : iconBranch el = claimC8spec el := by
  unfold iconBranch claimC8spec
  by_cases h1 : el.isTagISpan = true
  · rw [if_pos h1]
    by_cases h2 : 0 < el.rect.width ∧ 0 < el.rect.height ∧
        (isIconClassOf el.className = true ∨
          (iconHasText el.textC = false ∧ el.rect.width < 50))
    · rw [if_pos h2, if_pos ⟨h1, h2⟩]
    · rw [if_neg h2, if_neg (fun hc => h2 hc.2)]
  · rw [if_neg h1, if_neg (fun hc => h1 hc.1)]

/-- Claim C8 counterexample: An empty `<span>` with no icon class, width
60 px and height 10 px, has positive area, so the claim as stated says
the walker rasterises it — but the branch requires width below 50 px and
does not fire (and no later branch rasterises a background-less,
text-less span). -/
theorem claimC8_counterexample :
    ((⟨true, [], [], ⟨10, 10, 60, 10⟩, true⟩ : IconCand).isTagISpan = true ∧
      (0 : ℚ) < (⟨true, [], [], ⟨10, 10, 60, 10⟩, true⟩ : IconCand).rect.width ∧
      (0 : ℚ) < (⟨true, [], [], ⟨10, 10, 60, 10⟩, true⟩ : IconCand).rect.height ∧
      iconHasText (⟨true, [], [], ⟨10, 10, 60, 10⟩, true⟩ : IconCand).textC = false) ∧
    iconBranch (⟨true, [], [], ⟨10, 10, 60, 10⟩, true⟩ : IconCand) = none := by
  exact ⟨⟨by decide, by decide, by decide, by decide⟩, by decide⟩

/-! ### Orchestrator error accumulation (html2pptx.js lines 1696-1735) -/

/-- Models `Array.prototype.join(sep)`. -/
def joinWithSep (sep : List Char) : List (List Char) → List Char
  | [] => []
  | [x] => x
  | x :: y :: rest => x ++ sep ++ joinWithSep sep (y :: rest)

/-- Lines `validationErrors.map((e, i) => two spaces, i + 1, dot-space, e)`
starting at index `i` (html2pptx.js line 1720). -/
def numberLinesFrom (i : ℕ) : List (List Char) → List (List Char)
  | [] => []
  | e :: rest =>
    (("  ").data ++ (Nat.repr (i + 1)).data ++ (". ").data ++ e) ::
      numberLinesFrom (i + 1) rest

/-- The combined error message (html2pptx.js lines 1718-1720): a single
error verbatim, otherwise a header line followed by the numbered list. -/
def combineErrors (errs : List (List Char)) : List Char :=
  match errs with
  | [e] => e
  | _ =>
    ("Multiple validation errors found:").data ++ ['\n'] ++
      joinWithSep ['\n'] (numberLinesFrom 0 errs)

/-- The catch-wrapper (html2pptx.js lines 1730-1734): prepend the HTML
file path unless the message already starts with it. -/
def prependPath (file msg : List Char) : List Char :=
  if file.isPrefixOf msg then msg else file ++ (": ").data ++ msg

/-- The outcome of one `html2pptx` run: the thrown message, if any, and
whether slide content was added to the presentation. -/
structure OrchResult where
  thrown : Option (List Char)
  contentAdded : Bool
deriving DecidableEq

/-- The orchestrator's validation-error flow (html2pptx.js lines
1696-1735): the fatal errors of the whole pass (body-dimension errors,
layout-dimension errors, and the walker's accumulated errors — the
text-box position warnings are logged, not accumulated) are concatenated;
when any exist, a single combined message is thrown before `addSlide`,
`addBackground` or `addElements` run, and the catch wrapper prepends the
file path at most once. -/
def orchestrate (htmlFile : List Char)
    (bodyErrs dimErrs slideErrs : List (List Char)) : OrchResult :=
  let ve := bodyErrs ++ dimErrs ++ slideErrs
  if ve.isEmpty then ⟨none, true⟩
  else ⟨some (prependPath htmlFile (combineErrors ve)), false⟩

theorem mem_numberLines_suffix (e : List Char) :
    ∀ (errs : List (List Char)) (i : ℕ), e ∈ errs →
      ∃ l ∈ numberLinesFrom i errs, e <:+ l := by
  intro errs
  induction errs with
  | nil => intro i he; exact absurd he (List.not_mem_nil e)
  | cons x rest ih =>
    intro i he
    rcases List.mem_cons.mp he with he | he
    · subst he
      exact ⟨_, List.mem_cons_self _ _, List.suffix_append _ _⟩
    · obtain ⟨l, hl, hs⟩ := ih (i + 1) he
      exact ⟨l, List.mem_cons_of_mem _ hl, hs⟩

theorem mem_joinWithSep_infix (sep : List Char) :
    ∀ (l : List (List Char)) (e : List Char), e ∈ l →
      e <:+: joinWithSep sep l := by
  intro l
  induction l with
  | nil => intro e he; exact absurd he (List.not_mem_nil e)
  | cons x rest ih =>
    intro e he
    cases rest with
    | nil =>
      rcases List.mem_cons.mp he with he | he
      · subst he; exact List.infix_rfl
      · exact absurd he (List.not_mem_nil e)
    | cons y rest2 =>
      rcases List.mem_cons.mp he with he | he
      · subst he
        have : e <+: e ++ (sep ++ joinWithSep sep (y :: rest2)) :=
          List.prefix_append _ _
        rw [← List.append_assoc] at this
        exact this.isInfix
      · have hi := ih e he
        have hsuf : joinWithSep sep (y :: rest2) <:+
            (x ++ sep) ++ joinWithSep sep (y :: rest2) :=
          List.suffix_append _ _
        exact hi.trans hsuf.isInfix

theorem mem_combineErrors_infix (errs : List (List Char)) (e : List Char)
    (he : e ∈ errs) : e <:+: combineErrors errs := by
  match errs with
  | [e0] =>
    rcases List.mem_cons.mp he with h | h
    · subst h; exact List.infix_rfl
    · exact absurd h (List.not_mem_nil e)
  | [] => exact absurd he (List.not_mem_nil e)
  | e0 :: e1 :: rest =>
    show e <:+:
      ("Multiple validation errors found:").data ++ ['\n'] ++
        joinWithSep ['\n'] (numberLinesFrom 0 (e0 :: e1 :: rest))
    obtain ⟨l, hl, hs⟩ := mem_numberLines_suffix e (e0 :: e1 :: rest) 0 he
    have h1 : e <:+: l := hs.isInfix
    have h2 : l <:+: joinWithSep ['\n'] (numberLinesFrom 0 (e0 :: e1 :: rest)) :=
      mem_joinWithSep_infix ['\n'] _ l hl
    have h3 : joinWithSep ['\n'] (numberLinesFrom 0 (e0 :: e1 :: rest)) <:+
        ("Multiple validation errors found:").data ++ ['\n'] ++
          joinWithSep ['\n'] (numberLinesFrom 0 (e0 :: e1 :: rest)) :=
      List.suffix_append _ _
    exact (h1.trans h2).trans h3.isInfix

/-- Claim C9: When the accumulated fatal validation errors of a run are
non-empty, the orchestrator throws a single combined message and adds no
content to the presentation; every validation error appears in the
combined message; and the thrown message has the HTML file path
prepended exactly once — it starts with the path, the path-colon prefix
is added when the combined message does not already start with the path,
and nothing is added when it already does. -/
theorem claimC9_theorem (htmlFile : List Char)
    (bodyErrs dimErrs slideErrs : List (List Char))
    (h : bodyErrs ++ dimErrs ++ slideErrs ≠ []) :
    orchestrate htmlFile bodyErrs dimErrs slideErrs =
      ⟨some (prependPath htmlFile
        (combineErrors (bodyErrs ++ dimErrs ++ slideErrs))), false⟩ ∧
    htmlFile.isPrefixOf (prependPath htmlFile
      (combineErrors (bodyErrs ++ dimErrs ++ slideErrs))) = true ∧
    (htmlFile.isPrefixOf (combineErrors (bodyErrs ++ dimErrs ++ slideErrs)) = true →
      prependPath htmlFile (combineErrors (bodyErrs ++ dimErrs ++ slideErrs))
        = combineErrors (bodyErrs ++ dimErrs ++ slideErrs)) ∧
    (htmlFile.isPrefixOf (combineErrors (bodyErrs ++ dimErrs ++ slideErrs)) = false →
      prependPath htmlFile (combineErrors (bodyErrs ++ dimErrs ++ slideErrs))
        = htmlFile ++ (": ").data ++ combineErrors (bodyErrs ++ dimErrs ++ slideErrs)) ∧
    ∀ e ∈ bodyErrs ++ dimErrs ++ slideErrs,
      e <:+: combineErrors (bodyErrs ++ dimErrs ++ slideErrs) := by
  refine ⟨?_, ?_, ?_, ?_, ?_⟩
  · unfold orchestrate
    have hne : (bodyErrs ++ dimErrs ++ slideErrs).isEmpty = false := by
      cases he : (bodyErrs ++ dimErrs ++ slideErrs).isEmpty with
      | false => rfl
      | true => exact absurd (List.isEmpty_iff.mp he) h
    simp only [hne, Bool.false_eq_true, if_false]
  · unfold prependPath
    by_cases hp : htmlFile.isPrefixOf
        (combineErrors (bodyErrs ++ dimErrs ++ slideErrs)) = true
    · rw [if_pos hp]; exact hp
    · rw [if_neg hp]
      rw [List.isPrefixOf_iff_prefix]
      exact (List.prefix_append _ _).trans (List.prefix_append _ _)
  · intro hp
    unfold prependPath
    rw [if_pos hp]
  · intro hp
    unfold prependPath
    rw [hp]
    simp only [Bool.false_eq_true, if_false]
  · intro e he
    exact mem_combineErrors_infix _ e he

/-- Witness for C9 at one body error and one walker error. -/
theorem claimC9_witness :
    ((("body overflow").data :: []) ++ [] ++ [("bad placeholder").data] ≠ []) ∧
    orchestrate ("slide.html").data [("body overflow").data] [] [("bad placeholder").data] =
      ⟨some (prependPath ("slide.html").data
        (combineErrors ([("body overflow").data] ++ [] ++ [("bad placeholder").data]))),
        false⟩ :=
  ⟨by decide,
    (claimC9_theorem ("slide.html").data [("body overflow").data] []
      [("bad placeholder").data] (by decide)).1⟩

end Html2Pptx
